import Mathlib

/-!
Verification development for the Dato DRUM web application's sample-transfer
engine: the MIDI Sample Dump Standard (SDS) frame codec and transfer session
(`src/lib/services/sdsProtocol.ts`), the audio normalization pipeline
(`src/lib/services/audioProcessor.ts` and its recording sibling), the upload
queue store, and the firmware version comparator
(`src/lib/utils/versioning.ts`).

Conventions of the shallow embedding:
 * JavaScript numbers holding small non-negative integers are `ℕ`; signed
   16-bit samples are `ℤ`; float samples are `ℚ` (the clamp/multiply/round
   pipeline is exact rational arithmetic).
 * JavaScript bitwise operators `&`, `>>`, `<<`, `^` on values in `[0, 2^31)`
   coincide with `ℕ`'s `&&&`, `>>>`, `<<<`, `^^^` and are modelled so.
 * `Math.round` on a non-negative rational `a / b` is `(2*a + b) / (2*b)` in
   `ℕ`; on a general rational `x` it is `⌊x + 1/2⌋` (round half toward +∞).
 * `Uint8Array` PCM data is `List ℕ` (each entry `< 256` in the faithful
   domain); MIDI byte messages are `List ℕ`.
 * The device's replies observed by each `waitForResponse` call are supplied
   as an oracle `List SdsResponseType`; an exhausted oracle means the timer
   fires, i.e. behaves as `timeout`, so the leftover oracle records exactly
   the replies that were never awaited.
-/

/-! ## Constants from sdsProtocol.ts -/

def SYSEX_START : ℕ := 0xF0
def SYSEX_END : ℕ := 0xF7
def MIDI_NON_REALTIME_ID : ℕ := 0x7E
def SYSEX_CHANNEL : ℕ := 0x65
def SDS_DUMP_HEADER : ℕ := 0x01
def SDS_DATA_PACKET : ℕ := 0x02

/-! ## Frame codec (pure functions from sdsProtocol.ts) -/

/-- Source `sendSdsMessage`: wraps a body in the SysEx frame
`[SYSEX_START, MIDI_NON_REALTIME_ID, SYSEX_CHANNEL, ...data, SYSEX_END]`. -/
def sendSdsMessage (data : List ℕ) : List ℕ :=
  [SYSEX_START, MIDI_NON_REALTIME_ID, SYSEX_CHANNEL] ++ data ++ [SYSEX_END]

/-- Source `sampleRateToPeriod`: `periodNs = Math.round(1000000000 / sampleRate)`
split into three 7-bit groups, least-significant first.  `Math.round` of the
non-negative rational `1e9 / r` is the integer `(2e9 + r) / (2r)` (round half
up); for `sampleRate = 0` JavaScript produces `Infinity`, whose `ToInt32` is 0,
matching `ℕ` division by zero. -/
def sampleRateToPeriod (sampleRate : ℕ) : List ℕ :=
  let periodNs := (2000000000 + sampleRate) / (2 * sampleRate)
  [periodNs &&& 0x7F, (periodNs >>> 7) &&& 0x7F, (periodNs >>> 14) &&& 0x7F]

/-- Source `lengthToSdsFormat`: `wordLength = Math.floor(byteLength / 2)` split
into three 7-bit groups, least-significant first. -/
def lengthToSdsFormat (byteLength : ℕ) : List ℕ :=
  let wordLength := byteLength / 2
  [wordLength &&& 0x7F, (wordLength >>> 7) &&& 0x7F, (wordLength >>> 14) &&& 0x7F]

/-- Source `createDumpHeader`: body of the SDS dump header message. -/
def createDumpHeader (sampleNum bitDepth sampleRate sampleLength : ℕ) : List ℕ :=
  let sampleNumBytes := [sampleNum &&& 0x7F, (sampleNum >>> 7) &&& 0x7F]
  let periodBytes := sampleRateToPeriod sampleRate
  let lengthBytes := lengthToSdsFormat sampleLength
  let loopStartBytes := lengthBytes
  let loopEndBytes := lengthBytes
  let loopType := 0x7F
  [SDS_DUMP_HEADER] ++ sampleNumBytes ++ [bitDepth] ++ periodBytes ++ lengthBytes ++
    loopStartBytes ++ loopEndBytes ++ [loopType]

/-- Source `pack16BitSample`: convert signed to unsigned by adding `0x8000`,
then pack into three 7-bit bytes, left-justified.  For `s ∈ [-32768, 32767]`
the sum is non-negative, so `Int.toNat` is exact. -/
def pack16BitSample (sample : ℤ) : List ℕ :=
  let unsignedSample := (sample + 0x8000).toNat
  [(unsignedSample >>> 9) &&& 0x7F, (unsignedSample >>> 2) &&& 0x7F,
   (unsignedSample <<< 5) &&& 0x7F]

/-- Inverse of `pack16BitSample`, defined for verification: reassemble the
16-bit unsigned value from the three 7-bit groups and subtract `0x8000`. -/
def unpack16BitSample : List ℕ → ℤ
  | [b0, b1, b2] => ((b0 * 512 + b1 * 4 + b2 / 32 : ℕ) : ℤ) - 0x8000
  | _ => 0

/-- Source `calculateChecksum`: XOR of the protocol constants, the packet
number and all payload bytes, with the high bit cleared. -/
def calculateChecksum (packetNum : ℕ) (dataBytes : List ℕ) : ℕ :=
  (dataBytes.foldl (fun checksum byte => checksum ^^^ byte)
    (MIDI_NON_REALTIME_ID ^^^ SYSEX_CHANNEL ^^^ SDS_DATA_PACKET ^^^ packetNum)) &&& 0x7F

/-- Source `createDataPacket` inner loop body for sample index `i`: read a
16-bit little-endian sample at `offset + 2*i` if fully inside the data,
convert to signed, and pack; otherwise pad with three zero bytes. -/
def packSampleAt (pcmData : List ℕ) (sampleOffset : ℕ) : List ℕ :=
  if sampleOffset + 1 < pcmData.length then
    let sample := ((pcmData.getD (sampleOffset + 1) 0) <<< 8) ||| pcmData.getD sampleOffset 0
    let signedSample : ℤ := if 32767 < sample then (sample : ℤ) - 65536 else (sample : ℤ)
    pack16BitSample signedSample
  else
    [0, 0, 0]

/-- Source `createDataPacket`: body of an SDS data packet.  The source pads
`dataBytes` with zeros up to 120 entries and then truncates to exactly 120
(`while (dataBytes.length < 120) ...; dataBytes.length = 120`); both steps are
modelled literally even though the loop always produces exactly 120 bytes. -/
def createDataPacket (packetNum : ℕ) (pcmData : List ℕ) (offset : ℕ) : List ℕ :=
  let dataBytes := (List.range 40).flatMap (fun i => packSampleAt pcmData (offset + i * 2))
  let dataBytes := (dataBytes ++ List.replicate (120 - dataBytes.length) 0).take 120
  let checksum := calculateChecksum packetNum dataBytes
  [SDS_DATA_PACKET, packetNum &&& 0x7F] ++ dataBytes ++ [checksum]

/-- Reconstruction of a value from three 7-bit groups, least-significant
first (verification helper for the header-field claims). -/
def decode3 : List ℕ → ℕ
  | [b0, b1, b2] => b0 + b1 * 128 + b2 * 16384
  | _ => 0

/-! ## Audio normalization (audioProcessor.ts / the recording sibling)

The decode / downmix / resample front end runs through the browser's audio
APIs; the claims concern the deterministic tail stages, which take the
post-resample mono float data (`finalData`, modelled as `List ℚ`). -/

def TARGET_SAMPLE_RATE : ℕ := 44100
def MAX_SAMPLES : ℕ := 44100

/-- JavaScript `Math.round`: round half toward positive infinity. -/
def jsRound (x : ℚ) : ℤ := ⌊x + 1 / 2⌋

/-- Source quantization step (identical in `processAudioFile` and
`processRecording`): clamp to `[-1, 1]`, multiply by 32767, round. -/
def quantizeSample (s : ℚ) : ℤ :=
  let sample := max (-1) (min 1 s)
  jsRound (sample * 32767)

/-- Source `pcmView.setInt16(i * 2, intSample, true)`: two's-complement
16-bit value written little-endian, low byte first. -/
def int16LEBytes (i : ℤ) : List ℕ :=
  let u := (i % 65536).toNat
  [u % 256, u / 256]

/-- Source `processAudioFile`, tail stages: trim to at most `MAX_SAMPLES`
(no padding), then quantize each sample to two little-endian bytes. -/
def processAudioFile (finalData : List ℚ) : List ℕ :=
  let finalData := if MAX_SAMPLES < finalData.length then finalData.take MAX_SAMPLES else finalData
  finalData.flatMap (fun s => int16LEBytes (quantizeSample s))

/-- Source `processRecording`, tail stages: trim to at most `MAX_SAMPLES`,
zero-pad shorter data up to exactly `MAX_SAMPLES`, then quantize. -/
def processRecording (finalData : List ℚ) : List ℕ :=
  let finalData :=
    if MAX_SAMPLES < finalData.length then finalData.take MAX_SAMPLES
    else if finalData.length < MAX_SAMPLES then
      finalData ++ List.replicate (MAX_SAMPLES - finalData.length) 0
    else finalData
  finalData.flatMap (fun s => int16LEBytes (quantizeSample s))

/-! ## Firmware version comparison (versioning.ts) -/

/-- One parsed firmware version, the four capture groups of the source regex
`/(\d+)\.(\d+)\.(\d+)-dev\.(\d+)/`. -/
structure FirmwareVersion where
  major : ℕ
  minor : ℕ
  patch : ℕ
  commits : ℕ
deriving DecidableEq, Repr

/-- Numeric value of a digit-character run, as `parseInt(_, 10)` computes it
on an all-digit string. -/
def parseDigits (ds : List Char) : ℕ :=
  ds.foldl (fun acc c => 10 * acc + (c.toNat - 48)) 0

/-- Attempt to match the source regex `(\d+)\.(\d+)\.(\d+)-dev\.(\d+)` at the
start of the character list.  Since `\d` and the literal separators are
disjoint character classes, the regex engine's greedy matching with
backtracking is equivalent to taking each maximal digit run. -/
def matchVersionAt (cs : List Char) : Option FirmwareVersion :=
  let d1 := cs.takeWhile Char.isDigit
  match d1, cs.dropWhile Char.isDigit with
  | _ :: _, '.' :: r1 =>
    let d2 := r1.takeWhile Char.isDigit
    match d2, r1.dropWhile Char.isDigit with
    | _ :: _, '.' :: r2 =>
      let d3 := r2.takeWhile Char.isDigit
      match d3, r2.dropWhile Char.isDigit with
      | _ :: _, '-' :: 'd' :: 'e' :: 'v' :: '.' :: r3 =>
        match r3.takeWhile Char.isDigit with
        | [] => none
        | d4 =>
          some ⟨parseDigits d1, parseDigits d2, parseDigits d3, parseDigits d4⟩
      | _, _ => none
    | _, _ => none
  | _, _ => none

/-- Unanchored leftmost search, as `versionString.match(regex)` performs:
try each start position left to right. -/
def findVersionMatch : List Char → Option FirmwareVersion
  | [] => none
  | c :: cs => (matchVersionAt (c :: cs)).orElse (fun _ => findVersionMatch cs)

/-- Source `parseFirmwareVersion`: first match of the regex
`/(\d+)\.(\d+)\.(\d+)-dev\.(\d+)/` in the string, or `null`.  Note the
`-dev.N` suffix is required by this regex, not optional. -/
def parseFirmwareVersion (versionString : String) : Option FirmwareVersion :=
  findVersionMatch versionString.data

/-- Source `isNewerVersion`.  `currentVersion` is `string | null`; the guard
`if (!currentVersion)` is JavaScript falsiness, which is also true for the
empty string, hence the explicit empty-string case. -/
def isNewerVersion (currentVersion : Option String) (newVersion : String) : Bool :=
  match currentVersion with
  | none => true
  | some current =>
    if current = "" then true
    else
      match parseFirmwareVersion current, parseFirmwareVersion newVersion with
      | some parsedCurrent, some parsedNew =>
        if parsedCurrent.major < parsedNew.major then true
        else if parsedNew.major < parsedCurrent.major then false
        else if parsedCurrent.minor < parsedNew.minor then true
        else if parsedNew.minor < parsedCurrent.minor then false
        else if parsedCurrent.patch < parsedNew.patch then true
        else if parsedNew.patch < parsedCurrent.patch then false
        else if parsedCurrent.commits < parsedNew.commits then true
        else if parsedNew.commits < parsedCurrent.commits then false
        else false
      | _, _ => false

/-- Strict lexicographic order on parsed versions: major, then minor, then
patch, then the `-dev` commit count (specification-side comparison). -/
def versionLt (a b : FirmwareVersion) : Prop :=
  a.major < b.major ∨ (a.major = b.major ∧
    (a.minor < b.minor ∨ (a.minor = b.minor ∧
      (a.patch < b.patch ∨ (a.patch = b.patch ∧ a.commits < b.commits)))))

instance (a b : FirmwareVersion) : Decidable (versionLt a b) := by
  unfold versionLt; infer_instance

/-! ## Upload queue (sample upload store) -/

/-- The fields of a browser `File` that the queue logic inspects. -/
structure AudioFile where
  name : String
  type : String
deriving DecidableEq, Repr

/-- Source `audioMimeTypes` list in `isAudioFile`. -/
def audioMimeTypes : List String :=
  ["audio/wav", "audio/wave", "audio/x-wav", "audio/mpeg", "audio/mp3",
   "audio/ogg", "audio/webm", "audio/flac", "audio/aac", "audio/m4a"]

/-- Source `audioExtensions` list in `isAudioFile`. -/
def audioExtensions : List String :=
  [".wav", ".mp3", ".ogg", ".webm", ".flac", ".aac", ".m4a"]

/-- JavaScript `String.prototype.toLowerCase`, modelled character-wise on the
string's character list (the inputs here are ASCII). -/
def jsToLower (s : String) : String := ⟨s.data.map Char.toLower⟩

/-- JavaScript `String.prototype.endsWith`, modelled as a suffix test on the
character lists. -/
def jsEndsWith (s suffix : String) : Bool := suffix.data.isSuffixOf s.data

/-- Source `isAudioFile`: MIME type membership, with file extension of the
lowercased name as fallback. -/
def isAudioFile (file : AudioFile) : Bool :=
  if audioMimeTypes.contains (jsToLower file.type) then true
  else audioExtensions.any (fun ext => jsEndsWith (jsToLower file.name) ext)

/-- Source `UploadQueueItem.status` values. -/
inductive UploadStatus
  | pending
  | processing
  | uploading
  | completed
  | error
deriving DecidableEq, Repr

/-- Source `UploadQueueItem` (the fields the queue logic reads or writes). -/
structure UploadQueueItem where
  id : String
  file : AudioFile
  targetSlot : ℕ
  status : UploadStatus
  progress : ℚ
deriving DecidableEq, Repr

/-- Source `UploadState`. -/
structure UploadState where
  queue : List UploadQueueItem
  isUploading : Bool
  currentUploadId : Option String
deriving DecidableEq, Repr

/-- Source `addToQueue`.  A thrown `Error` is modelled as `Except.error`: when
the callback passed to the store's `update` throws, `set` is never reached, so
the store state is unchanged — no successor state exists on the error path.
`generateUploadId` draws on `Date.now` and `Math.random`; the fresh id is
passed in explicitly as `newId`. -/
def addToQueue (file : AudioFile) (targetSlot : ℕ) (newId : String)
    (state : UploadState) : Except String (String × UploadState) :=
  if ¬ isAudioFile file then
    .error "not a supported audio format"
  else if targetSlot < 30 ∨ 61 < targetSlot then
    .error "invalid slot number"
  else
    match state.queue.find? (fun item =>
      item.targetSlot = targetSlot ∧
        (item.status = .pending ∨ item.status = .processing ∨ item.status = .uploading)) with
    | some _ => .error "slot is already being uploaded"
    | none =>
      .ok (newId, { state with
        queue := state.queue ++
          [{ id := newId, file := file, targetSlot := targetSlot,
             status := .pending, progress := 0 }] })

/-! ## Transfer session (transferSampleViaSds) -/

/-- Source `SdsResponse.type` values: the four handshake replies recognized
by `handleMidiMessage`, plus the `timeout` produced by `waitForResponse`'s
timer. -/
inductive SdsResponseType
  | ack
  | nak
  | wait
  | cancel
  | timeout
deriving DecidableEq, Repr

/-- Source `SdsProgress.stage` values. -/
inductive SdsStage
  | header
  | data
  | complete
deriving DecidableEq, Repr

/-- Source `SdsProgress` records delivered to the progress callback. -/
structure SdsProgress where
  stage : SdsStage
  packet : Option ℕ
  totalPackets : Option ℕ
  percentage : ℚ
  handshaking : Bool
deriving DecidableEq, Repr

/-- Observable side effects of one transfer: each MIDI send (the full framed
message) and each progress callback invocation, in program order. -/
inductive SdsEvent
  | send (message : List ℕ)
  | progress (p : SdsProgress)
deriving DecidableEq, Repr

/-- The typed errors thrown by `transferSampleViaSds`. -/
inductive SdsError
  | invalidSampleNumber
  | headerRejectedTwice
  | deviceCancelled
deriving DecidableEq, Repr

/-- Result of a modelled transfer run: the event trace, the outcome (`none`
means the promise resolved), the final values of the `successfulPackets` and
`handshaking` locals, and the part of the reply oracle never awaited. -/
structure SdsResult where
  events : List SdsEvent
  outcome : Option SdsError
  successfulPackets : ℕ
  handshaking : Bool
  leftover : List SdsResponseType
deriving DecidableEq, Repr

/-- The percentage reported after `k` successful packets out of `total`:
source `Math.min(100, (successfulPackets / totalPackets) * 100)`. -/
def pct (total k : ℕ) : ℚ := min 100 ((k : ℚ) / (total : ℚ) * 100)

/-- The progress record emitted at the bottom of the streaming loop. -/
def dataProgress (total k : ℕ) (handshaking : Bool) : SdsProgress :=
  { stage := .data, packet := some k, totalPackets := some total,
    percentage := pct total k, handshaking := handshaking }

/-- The progress record emitted right after the dump header is sent. -/
def headerProgress : SdsProgress :=
  { stage := .header, packet := none, totalPackets := none,
    percentage := 0, handshaking := false }

/-- The progress record emitted after the streaming loop finishes. -/
def completeProgress (total k : ℕ) (handshaking : Bool) : SdsProgress :=
  { stage := .complete, packet := some k, totalPackets := some total,
    percentage := 100, handshaking := handshaking }

/-- The source's `while (offset < pcmData.length)` streaming loop.  Each
`await waitForResponse(...)` consumes the next oracle entry; an empty oracle
behaves as `timeout`.  The `nak` branches perform `continue`, skipping the
progress update; the `cancel` branches throw; a plain or post-WAIT timeout
advances and clears `handshaking`; with `handshaking` already false the loop
advances without consuming any reply. -/
def sdsLoop (pcmData : List ℕ) (total packetNum offset successful : ℕ)
    (handshaking : Bool) (replies : List SdsResponseType) : SdsResult :=
  if h : offset < pcmData.length then
    let packetEv := SdsEvent.send
      (sendSdsMessage (createDataPacket (packetNum &&& 0x7F) pcmData offset))
    if handshaking then
      match replies with
      | .ack :: rest =>
        let r := sdsLoop pcmData total (packetNum + 1) (offset + 80) (successful + 1) true rest
        { r with events := packetEv :: .progress (dataProgress total (successful + 1) true) :: r.events }
      | .nak :: rest =>
        let r := sdsLoop pcmData total packetNum offset successful true rest
        { r with events := packetEv :: r.events }
      | .wait :: rest =>
        match rest with
        | .ack :: rest2 =>
          let r := sdsLoop pcmData total (packetNum + 1) (offset + 80) (successful + 1) true rest2
          { r with events := packetEv :: .progress (dataProgress total (successful + 1) true) :: r.events }
        | .nak :: rest2 =>
          let r := sdsLoop pcmData total packetNum offset successful true rest2
          { r with events := packetEv :: r.events }
        | .cancel :: rest2 =>
          { events := [packetEv], outcome := some .deviceCancelled,
            successfulPackets := successful, handshaking := true, leftover := rest2 }
        | .wait :: rest2 =>
          let r := sdsLoop pcmData total (packetNum + 1) (offset + 80) (successful + 1) false rest2
          { r with events := packetEv :: .progress (dataProgress total (successful + 1) false) :: r.events }
        | .timeout :: rest2 =>
          let r := sdsLoop pcmData total (packetNum + 1) (offset + 80) (successful + 1) false rest2
          { r with events := packetEv :: .progress (dataProgress total (successful + 1) false) :: r.events }
        | [] =>
          let r := sdsLoop pcmData total (packetNum + 1) (offset + 80) (successful + 1) false []
          { r with events := packetEv :: .progress (dataProgress total (successful + 1) false) :: r.events }
      | .cancel :: rest =>
        { events := [packetEv], outcome := some .deviceCancelled,
          successfulPackets := successful, handshaking := true, leftover := rest }
      | .timeout :: rest =>
        let r := sdsLoop pcmData total (packetNum + 1) (offset + 80) (successful + 1) false rest
        { r with events := packetEv :: .progress (dataProgress total (successful + 1) false) :: r.events }
      | [] =>
        let r := sdsLoop pcmData total (packetNum + 1) (offset + 80) (successful + 1) false []
        { r with events := packetEv :: .progress (dataProgress total (successful + 1) false) :: r.events }
    else
      let r := sdsLoop pcmData total (packetNum + 1) (offset + 80) (successful + 1) false replies
      { r with events := packetEv :: .progress (dataProgress total (successful + 1) false) :: r.events }
  else
    { events := [], outcome := none, successfulPackets := successful,
      handshaking := handshaking, leftover := replies }
termination_by replies.length + (pcmData.length - offset)
decreasing_by all_goals simp_wf <;> omega

/-- Run the streaming loop from the start and, on success, append the
`complete` progress report (source lines after the `while` loop). -/
def finishTransfer (pre : List SdsEvent) (pcmData : List ℕ) (total : ℕ)
    (handshaking : Bool) (replies : List SdsResponseType) : SdsResult :=
  let r := sdsLoop pcmData total 0 0 0 handshaking replies
  match r.outcome with
  | none =>
    { r with events :=
        pre ++ r.events ++ [.progress (completeProgress total r.successfulPackets r.handshaking)] }
  | some _ => { r with events := pre ++ r.events }

/-- Source `transferSampleViaSds`, as a function of the PCM data, slot,
sample rate and the oracle of device replies.  Slot validation throws first;
then the dump header is sent and the header reply handled (a `Nak` triggers
exactly one resend, whose reply must be `Ack` or `Timeout`); `handshaking`
is computed from the FIRST header reply; then the streaming loop runs. -/
def transferSampleViaSds (pcmData : List ℕ) (sampleNumber sampleRate : ℕ)
    (replies : List SdsResponseType) : SdsResult :=
  if sampleNumber < 30 ∨ 61 < sampleNumber then
    { events := [], outcome := some .invalidSampleNumber, successfulPackets := 0,
      handshaking := false, leftover := replies }
  else
    let totalPackets := (pcmData.length + 79) / 80
    let header := createDumpHeader sampleNumber 16 sampleRate pcmData.length
    let headerEvents : List SdsEvent :=
      [.send (sendSdsMessage header), .progress headerProgress]
    match replies with
    | .nak :: rest =>
      let resendEvents := headerEvents ++ [.send (sendSdsMessage header)]
      match rest with
      | [] =>
        finishTransfer resendEvents pcmData totalPackets false []
      | .ack :: rest2 =>
        finishTransfer resendEvents pcmData totalPackets false rest2
      | .timeout :: rest2 =>
        finishTransfer resendEvents pcmData totalPackets false rest2
      | _ :: rest2 =>
        { events := resendEvents, outcome := some .headerRejectedTwice,
          successfulPackets := 0, handshaking := false, leftover := rest2 }
    | .ack :: rest =>
      finishTransfer headerEvents pcmData totalPackets true rest
    | _ :: rest =>
      finishTransfer headerEvents pcmData totalPackets false rest
    | [] =>
      finishTransfer headerEvents pcmData totalPackets false []

/-! ## Observation helpers for traces -/

/-- Number of MIDI messages sent in a trace. -/
def sendCount (events : List SdsEvent) : ℕ :=
  (events.filter (fun e => match e with | .send _ => true | .progress _ => false)).length

/-- The sequence of percentage values delivered to the progress callback. -/
def progressPercentages (events : List SdsEvent) : List ℚ :=
  events.filterMap (fun e => match e with | .progress p => some p.percentage | .send _ => none)

@[simp] theorem sendCount_nil : sendCount [] = 0 := rfl

@[simp] theorem sendCount_cons_send (m : List ℕ) (es : List SdsEvent) :
    sendCount (.send m :: es) = sendCount es + 1 := by
  simp [sendCount, List.filter]

@[simp] theorem sendCount_cons_progress (p : SdsProgress) (es : List SdsEvent) :
    sendCount (.progress p :: es) = sendCount es := by
  simp [sendCount, List.filter]

@[simp] theorem progressPercentages_nil : progressPercentages [] = [] := rfl

@[simp] theorem progressPercentages_cons_send (m : List ℕ) (es : List SdsEvent) :
    progressPercentages (.send m :: es) = progressPercentages es := by
  simp [progressPercentages]

@[simp] theorem progressPercentages_cons_progress (p : SdsProgress) (es : List SdsEvent) :
    progressPercentages (.progress p :: es) = p.percentage :: progressPercentages es := by
  simp [progressPercentages]

@[simp] theorem sendCount_append (es fs : List SdsEvent) :
    sendCount (es ++ fs) = sendCount es + sendCount fs := by
  simp [sendCount, List.filter_append]

@[simp] theorem progressPercentages_append (es fs : List SdsEvent) :
    progressPercentages (es ++ fs) = progressPercentages es ++ progressPercentages fs := by
  simp [progressPercentages]

/-! ## Arithmetic helpers -/

theorem and_127_eq_mod (x : ℕ) : x &&& 127 = x % 128 := by
  have h := Nat.and_pow_two_sub_one_eq_mod x 7
  norm_num at h
  exact h

theorem and_127_lt (x : ℕ) : x &&& 127 < 128 := by
  have h : x &&& 127 ≤ 127 := Nat.and_le_right
  omega

theorem pct_le_100 (total k : ℕ) : pct total k ≤ 100 := min_le_left _ _

theorem pct_zero (total : ℕ) : pct total 0 = 0 := by
  simp [pct]

theorem pct_mono (total k : ℕ) : pct total k ≤ pct total (k + 1) := by
  unfold pct
  rcases Nat.eq_zero_or_pos total with h | h
  · simp [h]
  · apply min_le_min (le_refl (100 : ℚ))
    have ht : (0 : ℚ) < (total : ℚ) := by exact_mod_cast h
    have hk : ((k : ℚ)) ≤ ((k : ℚ) + 1) := by linarith
    have hdiv : ((k : ℚ)) / total ≤ ((k : ℚ) + 1) / total := by
      gcongr
    calc (k : ℚ) / total * 100 ≤ ((k : ℚ) + 1) / total * 100 := by nlinarith
    _ = ((k + 1 : ℕ) : ℚ) / total * 100 := by push_cast; ring

/-! ## Quantization (claim C3) -/

theorem quantize_eval_neg : quantizeSample (-3/2) = -32767 := by
  show jsRound (max (-1) (min 1 (-3/2 : ℚ)) * 32767) = -32767
  have h1 : min (1 : ℚ) (-3/2) = -3/2 := by rw [min_def]; norm_num
  have h2 : max (-1 : ℚ) (-3/2 : ℚ) = -1 := by rw [max_def]; norm_num
  rw [h1, h2]
  unfold jsRound
  rw [Int.floor_eq_iff]
  norm_num

theorem quantize_eval_pos : quantizeSample (3/2) = 32767 := by
  show jsRound (max (-1) (min 1 (3/2 : ℚ)) * 32767) = 32767
  have h1 : min (1 : ℚ) (3/2) = 1 := by rw [min_def]; norm_num
  have h2 : max (-1 : ℚ) (1 : ℚ) = 1 := by rw [max_def]; norm_num
  rw [h1, h2]
  unfold jsRound
  rw [Int.floor_eq_iff]
  norm_num

/-- C3, counterexample: the claim asserts an input sample of `-1.5` quantizes
to `-32768`; in the code it is clamped to `-1` and multiplied by `32767`,
giving `-32767`, so the code never produces `-32768` here. -/
theorem quantize_neg_clamp_cex :
    quantizeSample (-3/2) = -32767 ∧ quantizeSample (-3/2) ≠ -32768 := by
  refine ⟨quantize_eval_neg, ?_⟩
  rw [quantize_eval_neg]
  decide

/-- C3, amended: every float sample is clamped to `[-1, 1]`, multiplied by
`32767` and rounded, so the quantized value always lies in `[-32767, 32767]`
(no overflow or wraparound, and `-32768` is never reached); an input of `1.5`
quantizes to `32767` and an input of `-1.5` quantizes to `-32767`. -/
theorem quantize_clamp_spec :
    (∀ x : ℚ, -32767 ≤ quantizeSample x ∧ quantizeSample x ≤ 32767) ∧
    quantizeSample (3/2) = 32767 ∧ quantizeSample (-3/2) = -32767 := by
  refine ⟨fun x => ?_, quantize_eval_pos, quantize_eval_neg⟩
  show -32767 ≤ jsRound (max (-1) (min 1 x) * 32767) ∧
    jsRound (max (-1) (min 1 x) * 32767) ≤ 32767
  set c := max (-1) (min 1 x) with hc
  have h1 : (-1 : ℚ) ≤ c := le_max_left _ _
  have h2 : c ≤ 1 := max_le (by norm_num) (min_le_left _ _)
  unfold jsRound
  constructor
  · rw [Int.le_floor]
    push_cast
    nlinarith
  · have hlt : (⌊c * 32767 + 1/2⌋ : ℤ) < 32768 := by
      rw [Int.floor_lt]
      push_cast
      nlinarith
    omega

/-! ## Sample packing round trip (claim C7) -/

/-- C7: `pack16BitSample` adds `0x8000` and splits into three left-justified
7-bit bytes, and for every signed 16-bit sample the reconstruction
`unpack16BitSample` inverts it exactly. -/
theorem pack_roundtrip (s : ℤ) (h1 : -32768 ≤ s) (h2 : s ≤ 32767) :
    unpack16BitSample (pack16BitSample s) = s := by
  simp only [pack16BitSample, unpack16BitSample]
  have hu : (((s + 0x8000).toNat : ℤ)) = s + 32768 := Int.toNat_of_nonneg (by omega)
  set u := (s + 0x8000).toNat with hudef
  have hub : u < 65536 := by
    have h3 : (u : ℤ) < 65536 := by rw [hu]; omega
    exact_mod_cast h3
  simp only [Nat.shiftRight_eq_div_pow, Nat.shiftLeft_eq, and_127_eq_mod]
  norm_num
  omega

/-- C7, witness: the round trip evaluated at the concrete sample `-12345`. -/
theorem pack_roundtrip_witness :
    (-32768 : ℤ) ≤ -12345 ∧ (-12345 : ℤ) ≤ 32767 ∧
    unpack16BitSample (pack16BitSample (-12345)) = -12345 :=
  ⟨by norm_num, by norm_num, pack_roundtrip (-12345) (by norm_num) (by norm_num)⟩

/-! ## Dump header field encoding (claim C8) -/

/-- C8: for sample rate 44100 the three period groups reconstruct
`round(1e9/44100) = 22676`; for 8820 total bytes the length groups
reconstruct `4410` words; the header places the length encoding in the
loop-start and loop-end fields as well and ends with the no-loop sentinel
`0x7F`, as the explicit byte layout shows (bytes 4–6 are the period groups
`[20, 49, 1]`, bytes 7–9, 10–12 and 13–15 all carry the length groups
`[58, 34, 0]`). -/
theorem dump_header_fields :
    decode3 (sampleRateToPeriod 44100) = 22676 ∧
    decode3 (lengthToSdsFormat 8820) = 4410 ∧
    ∀ sampleNum, createDumpHeader sampleNum 16 44100 8820 =
      [1, sampleNum &&& 127, (sampleNum >>> 7) &&& 127, 16,
       20, 49, 1, 58, 34, 0, 58, 34, 0, 58, 34, 0, 127] := by
  refine ⟨by decide, by decide, fun n => ?_⟩
  rfl

theorem quantize_zero : quantizeSample 0 = 0 := by
  show jsRound (max (-1) (min 1 (0:ℚ)) * 32767) = 0
  have h1 : min (1 : ℚ) 0 = 0 := by rw [min_def]; norm_num
  have h2 : max (-1 : ℚ) (0 : ℚ) = 0 := by rw [max_def]; norm_num
  rw [h1, h2]
  unfold jsRound
  rw [Int.floor_eq_iff]
  norm_num

theorem flatMap_quant_length (l : List ℚ) :
    (l.flatMap (fun s => int16LEBytes (quantizeSample s))).length = 2 * l.length := by
  induction l with
  | nil => rfl
  | cons a l ih =>
    have h2 : (int16LEBytes (quantizeSample a)).length = 2 := rfl
    simp only [List.flatMap_cons, List.length_append, List.length_cons, ih, h2]
    omega

theorem flatMap_quant_replicate_zero (k : ℕ) :
    (List.replicate k (0:ℚ)).flatMap (fun s => int16LEBytes (quantizeSample s)) =
      List.replicate (2 * k) 0 := by
  induction k with
  | zero => rfl
  | succ k ih =>
    have h2 : 2 * (k + 1) = (2 * k) + 1 + 1 := by ring
    rw [List.replicate_succ, List.flatMap_cons, ih, quantize_zero, h2,
      List.replicate_succ, List.replicate_succ]
    rfl

/-- C6: the two normalization paths diverge on short input.  The file-upload
path only trims, so its PCM output has `2 * min length 44100` bytes; the
microphone-capture path trims and zero-pads, so its output is always exactly
88200 bytes, namely the file-upload output extended with zero bytes. -/
theorem normalization_divergence (finalData : List ℚ) :
    (processAudioFile finalData).length = 2 * min finalData.length 44100 ∧
    (processRecording finalData).length = 88200 ∧
    processRecording finalData =
      processAudioFile finalData ++
        List.replicate (88200 - 2 * min finalData.length 44100) 0 := by
  unfold processAudioFile processRecording MAX_SAMPLES
  rcases Nat.lt_trichotomy finalData.length 44100 with h | h | h
  · rw [if_neg (by omega), if_neg (by omega), if_pos h,
      List.flatMap_append, flatMap_quant_replicate_zero]
    refine ⟨by rw [flatMap_quant_length]; omega, ?_, ?_⟩
    · rw [List.length_append, flatMap_quant_length, List.length_replicate]
      omega
    · have harg : 2 * (44100 - finalData.length) = 88200 - 2 * min finalData.length 44100 := by
        omega
      rw [harg]
  · rw [if_neg (by omega), if_neg (by omega), if_neg (by omega)]
    refine ⟨by rw [flatMap_quant_length]; omega, by rw [flatMap_quant_length]; omega, ?_⟩
    rw [show 88200 - 2 * min finalData.length 44100 = 0 by omega]
    simp
  · rw [if_pos h, if_pos h]
    have htk : (finalData.take 44100).length = 44100 := by
      rw [List.length_take]; omega
    refine ⟨?_, ?_, ?_⟩
    · rw [flatMap_quant_length, htk]; omega
    · rw [flatMap_quant_length, htk]
    · rw [show 88200 - 2 * min finalData.length 44100 = 0 by omega]
      simp

/-- C4, counterexample: the claim asserts the `-dev.N` suffix is optional and
in particular `isNewer("1.0.0", "2.0.0") = true`; the source regex requires
the suffix, so both sides fail to parse and the comparison returns false. -/
theorem isNewer_plain_versions_cex :
    isNewerVersion (some ("1.0.0")) ("2.0.0") = false := by decide

/-- C4, amended: `isNewerVersion` parses both version strings with a REQUIRED
`-dev.N` suffix (a falsy — null or empty — current version returns true
unconditionally); when either side fails this format it returns false, and
when both parse it compares major, then minor, then patch, then the `-dev`
commit count, strictly lexicographically. -/
theorem isNewerVersion_spec :
    (∀ s, isNewerVersion none s = true) ∧
    (∀ current n, current ≠ "" →
      (parseFirmwareVersion current = none ∨ parseFirmwareVersion n = none) →
      isNewerVersion (some current) n = false) ∧
    (∀ current n pc pn, current ≠ "" →
      parseFirmwareVersion current = some pc → parseFirmwareVersion n = some pn →
      (isNewerVersion (some current) n = true ↔ versionLt pc pn)) := by
  refine ⟨fun s => rfl, ?_, ?_⟩
  · intro c n hc hor
    rcases hor with h | h
    · simp [isNewerVersion, hc, h]
    · cases hp : parseFirmwareVersion c <;> simp [isNewerVersion, hc, h, hp]
  · intro c n pc pn hc h1 h2
    simp only [isNewerVersion, if_neg hc, h1, h2]
    unfold versionLt
    split_ifs <;> simp_all <;> omega

/-- C4, witness: the amended theorem applied at concrete version strings. -/
theorem isNewerVersion_spec_witness :
    isNewerVersion none ("0.0.0") = true ∧
    (("1.0.0" : String) ≠ "" ∧ isNewerVersion (some ("1.0.0")) ("2.0.0") = false) ∧
    (("1.0.0-dev.1" : String) ≠ "" ∧
      parseFirmwareVersion ("1.0.0-dev.1") = some ⟨1, 0, 0, 1⟩ ∧
      parseFirmwareVersion ("1.0.0-dev.2") = some ⟨1, 0, 0, 2⟩ ∧
      isNewerVersion (some ("1.0.0-dev.1")) ("1.0.0-dev.2") = true) := by
  refine ⟨isNewerVersion_spec.1 _, ⟨by decide, ?_⟩, ⟨by decide, by decide, by decide, ?_⟩⟩
  · exact isNewerVersion_spec.2.1 _ _ (by decide) (Or.inl (by decide))
  · exact (isNewerVersion_spec.2.2 _ _ ⟨1,0,0,1⟩ ⟨1,0,0,2⟩ (by decide) (by decide) (by decide)).2
      (by decide)

/-! ## Upload queue exclusivity (claim C5) -/

/-- C5: enqueueing is rejected — the thrown error leaves the store unchanged,
since the state-updating callback never returns — when the target slot is
outside `30..61` or another entry for the same slot is non-terminal
(`pending`/`processing`/`uploading`); when the slot is in range, the file is
audio, and every same-slot entry is terminal (`completed` or `error`, the
code's failure status), the enqueue succeeds and appends a fresh pending
entry. -/
theorem addToQueue_spec (file : AudioFile) (targetSlot : ℕ) (newId : String)
    (state : UploadState) :
    ((targetSlot < 30 ∨ 61 < targetSlot) →
      (addToQueue file targetSlot newId state).isOk = false) ∧
    (∀ item ∈ state.queue, item.targetSlot = targetSlot →
      (item.status = .pending ∨ item.status = .processing ∨ item.status = .uploading) →
      (addToQueue file targetSlot newId state).isOk = false) ∧
    (isAudioFile file = true → 30 ≤ targetSlot → targetSlot ≤ 61 →
      (∀ item ∈ state.queue, item.targetSlot = targetSlot →
        item.status = .completed ∨ item.status = .error) →
      addToQueue file targetSlot newId state =
        .ok (newId, { state with queue := state.queue ++
          [{ id := newId, file := file, targetSlot := targetSlot,
             status := .pending, progress := 0 }] })) := by
  refine ⟨?_, ?_, ?_⟩
  · intro hrange
    unfold addToQueue
    by_cases haud : isAudioFile file = true
    · rw [if_neg (by simp [haud]), if_pos hrange]
      rfl
    · rw [if_pos (by simp [haud])]
      rfl
  · intro item hmem hslot hstat
    unfold addToQueue
    by_cases haud : isAudioFile file = true
    · by_cases hrange : targetSlot < 30 ∨ 61 < targetSlot
      · rw [if_neg (by simp [haud]), if_pos hrange]
        rfl
      · rw [if_neg (by simp [haud]), if_neg hrange]
        have hsome : (state.queue.find? (fun it : UploadQueueItem =>
            decide (it.targetSlot = targetSlot ∧
              (it.status = .pending ∨ it.status = .processing ∨ it.status = .uploading)))).isSome := by
          rw [List.find?_isSome]
          exact ⟨item, hmem, by simp [hslot, hstat]⟩
        obtain ⟨x, hx⟩ := Option.isSome_iff_exists.mp hsome
        rw [hx]
        rfl
    · rw [if_pos (by simp [haud])]
      rfl
  · intro haud h30 h61 hterm
    unfold addToQueue
    rw [if_neg (by simp [haud]), if_neg (by omega)]
    have hnone : state.queue.find? (fun it : UploadQueueItem =>
        decide (it.targetSlot = targetSlot ∧
          (it.status = .pending ∨ it.status = .processing ∨ it.status = .uploading))) = none := by
      rw [List.find?_eq_none]
      intro a ha
      simp only [decide_eq_true_eq, not_and]
      intro hslot'
      have hth := hterm a ha hslot'
      rcases hth with h | h <;> simp [h]
    rw [hnone]

/-- C5, witness: the three clauses applied at concrete queue states. -/
theorem addToQueue_spec_witness :
    ((62 < 30 ∨ 61 < 62) ∧
      (addToQueue ⟨"kick.wav", "audio/wav"⟩ 62 "u1"
        ⟨[], false, none⟩).isOk = false) ∧
    (addToQueue ⟨"kick.wav", "audio/wav"⟩ 31 "u2"
      ⟨[⟨"u0", ⟨"snare.wav", "audio/wav"⟩, 31, .pending, 0⟩], false, none⟩).isOk = false ∧
    (addToQueue ⟨"kick.wav", "audio/wav"⟩ 31 "u3"
      ⟨[⟨"u0", ⟨"snare.wav", "audio/wav"⟩, 31, .completed, 100⟩], false, none⟩ =
      .ok ("u3", ⟨[⟨"u0", ⟨"snare.wav", "audio/wav"⟩, 31, .completed, 100⟩,
        ⟨"u3", ⟨"kick.wav", "audio/wav"⟩, 31, .pending, 0⟩], false, none⟩)) := by
  refine ⟨⟨by omega, ?_⟩, ?_, ?_⟩
  · exact (addToQueue_spec _ _ _ _).1 (by omega)
  · exact (addToQueue_spec _ _ _ _).2.1
      ⟨"u0", ⟨"snare.wav", "audio/wav"⟩, 31, .pending, 0⟩ (by simp) rfl (Or.inl rfl)
  · exact (addToQueue_spec _ _ _ _).2.2 (by decide) (by omega) (by omega)
      (by intro item hmem hslot; simp at hmem; simp [hmem])

/-! ## Wire safety (claim C9) -/

/-- C9: every byte of the message bodies produced by `createDumpHeader` (with
`bitsPerSample = 16`) and `createDataPacket` — the packed sample bytes and the
checksum included — lies in `[0, 127]`, so no body byte can collide with the
SysEx delimiters `0xF0`/`0xF7`.  The PCM entries are bytes (`< 256`, the
`Uint8Array` domain). -/
theorem wire_safety (slot sampleRate sampleLength packetNum offset : ℕ)
    (pcmData : List ℕ) (_hpcm : ∀ b ∈ pcmData, b < 256) :
    (∀ b ∈ createDumpHeader slot 16 sampleRate sampleLength, b < 128) ∧
    (∀ b ∈ createDataPacket packetNum pcmData offset, b < 128) := by
  constructor
  · intro b hb
    simp only [createDumpHeader, sampleRateToPeriod, lengthToSdsFormat, SDS_DUMP_HEADER,
      List.cons_append, List.nil_append, List.mem_cons, List.not_mem_nil, or_false] at hb
    rcases hb with rfl | rfl | rfl | rfl | rfl | rfl | rfl | rfl | rfl | rfl | rfl | rfl | rfl
      | rfl | rfl | rfl | rfl <;>
      first
      | decide
      | exact and_127_lt _
  · intro b hb
    simp only [createDataPacket, SDS_DATA_PACKET, List.cons_append, List.nil_append,
      List.mem_cons, List.mem_append, List.not_mem_nil, or_false] at hb
    rcases hb with rfl | rfl | hb | rfl
    · decide
    · exact and_127_lt _
    · have hb' := List.take_subset _ _ hb
      rcases List.mem_append.mp hb' with h | h
      · obtain ⟨i, hi, hbi⟩ := List.mem_flatMap.mp h
        revert hbi
        unfold packSampleAt
        split
        · intro hbi
          simp only [pack16BitSample, List.mem_cons, List.not_mem_nil, or_false] at hbi
          rcases hbi with rfl | rfl | rfl <;> exact and_127_lt _
        · intro hbi
          simp only [List.mem_cons, List.not_mem_nil, or_false] at hbi
          rcases hbi with rfl | rfl | rfl <;> decide
      · rw [List.eq_of_mem_replicate h]
        decide
    · exact and_127_lt _

/-- C9, witness: both bounds evaluated at a concrete slot, packet number and
PCM byte array. -/
theorem wire_safety_witness :
    (∀ b ∈ ([0, 128, 255] : List ℕ), b < 256) ∧
    ((∀ b ∈ createDumpHeader 30 16 44100 160, b < 128) ∧
     (∀ b ∈ createDataPacket 0 [0, 128, 255] 0, b < 128)) :=
  ⟨by decide, wire_safety 30 44100 160 0 0 [0, 128, 255] (by decide)⟩

/-! ## Transfer session lemmas (claims C1, C2, C10) -/

/-- In non-handshaking mode the streaming loop consumes no replies, never
fails, sends one packet per 80-byte block remaining, and ends with the
`handshaking` flag still false. -/
theorem sdsLoop_nonHandshake (pcmData : List ℕ) (total : ℕ) :
    ∀ d packetNum offset successful replies, pcmData.length - offset = d →
      (sdsLoop pcmData total packetNum offset successful false replies).outcome = none ∧
      (sdsLoop pcmData total packetNum offset successful false replies).successfulPackets =
        successful + (pcmData.length - offset + 79) / 80 ∧
      (sdsLoop pcmData total packetNum offset successful false replies).handshaking = false ∧
      (sdsLoop pcmData total packetNum offset successful false replies).leftover = replies ∧
      sendCount (sdsLoop pcmData total packetNum offset successful false replies).events =
        (pcmData.length - offset + 79) / 80 := by
  intro d
  induction d using Nat.strong_induction_on with
  | _ d ih =>
    intro pn offset sp replies hd
    rw [sdsLoop]
    by_cases h : offset < pcmData.length
    · rw [dif_pos h]
      simp only [Bool.false_eq_true, if_false]
      have hrec := ih (pcmData.length - (offset + 80)) (by omega)
        (pn + 1) (offset + 80) (sp + 1) replies rfl
      refine ⟨by simp [hrec.1], ?_, by simp [hrec.2.2.1], by simp [hrec.2.2.2.1], ?_⟩
      · simp only [hrec.2.1]
        omega
      · simp only [sendCount_cons_send, sendCount_cons_progress, hrec.2.2.2.2]
        omega
    · rw [dif_neg h]
      refine ⟨rfl, ?_, rfl, rfl, ?_⟩
      · show sp = sp + (pcmData.length - offset + 79) / 80
        omega
      · show sendCount [] = (pcmData.length - offset + 79) / 80
        rw [sendCount_nil]
        omega

/-- Projections of `finishTransfer` for a non-handshaking streaming phase. -/
theorem finishTransfer_nonHandshake (pre : List SdsEvent) (pcmData : List ℕ) (total : ℕ)
    (replies : List SdsResponseType) :
    (finishTransfer pre pcmData total false replies).outcome = none ∧
    (finishTransfer pre pcmData total false replies).handshaking = false ∧
    (finishTransfer pre pcmData total false replies).leftover = replies ∧
    (finishTransfer pre pcmData total false replies).successfulPackets =
      (pcmData.length + 79) / 80 ∧
    sendCount (finishTransfer pre pcmData total false replies).events =
      sendCount pre + (pcmData.length + 79) / 80 := by
  have h := sdsLoop_nonHandshake pcmData total (pcmData.length - 0) 0 0 0 replies rfl
  unfold finishTransfer
  simp only [h.1]
  refine ⟨trivial, h.2.2.1, h.2.2.2.1, by rw [h.2.1]; omega, ?_⟩
  simp only [sendCount_append, sendCount_cons_progress, sendCount_nil, h.2.2.2.2]
  omega

/-- Event-trace shape of `finishTransfer` for a non-handshaking phase. -/
theorem finishTransfer_events_nonHandshake (pre : List SdsEvent) (pcmData : List ℕ)
    (total : ℕ) (replies : List SdsResponseType) :
    (finishTransfer pre pcmData total false replies).events =
      pre ++ (sdsLoop pcmData total 0 0 0 false replies).events ++
        [.progress (completeProgress total
          (sdsLoop pcmData total 0 0 0 false replies).successfulPackets false)] := by
  have h := sdsLoop_nonHandshake pcmData total (pcmData.length - 0) 0 0 0 replies rfl
  unfold finishTransfer
  simp only [h.1, h.2.2.1]

/-- C1, amended: if the first header reply is `Nak`, the header is resent
once and a second reply is awaited within the header timeout; if that second
reply is neither `Ack` nor `Timeout` the transfer fails with the
"Header rejected twice" error; if it IS `Ack` (or `Timeout`), the transfer
proceeds and completes, but in NON-handshaking mode — `handshaking` is
computed from the first header reply (the `Nak`), so no subsequent data
packet awaits a per-packet reply (the oracle leftover is exactly `rest`). -/
theorem header_nak_retry_spec (pcmData : List ℕ) (slot sampleRate : ℕ)
    (r2 : SdsResponseType) (rest : List SdsResponseType)
    (h30 : 30 ≤ slot) (h61 : slot ≤ 61) :
    (∃ tail, (transferSampleViaSds pcmData slot sampleRate (.nak :: r2 :: rest)).events =
      [.send (sendSdsMessage (createDumpHeader slot 16 sampleRate pcmData.length)),
       .progress headerProgress,
       .send (sendSdsMessage (createDumpHeader slot 16 sampleRate pcmData.length))] ++ tail) ∧
    (r2 ≠ .ack → r2 ≠ .timeout →
      (transferSampleViaSds pcmData slot sampleRate (.nak :: r2 :: rest)).outcome =
        some .headerRejectedTwice ∧
      (transferSampleViaSds pcmData slot sampleRate (.nak :: r2 :: rest)).leftover = rest) ∧
    ((r2 = .ack ∨ r2 = .timeout) →
      (transferSampleViaSds pcmData slot sampleRate (.nak :: r2 :: rest)).outcome = none ∧
      (transferSampleViaSds pcmData slot sampleRate (.nak :: r2 :: rest)).handshaking = false ∧
      (transferSampleViaSds pcmData slot sampleRate (.nak :: r2 :: rest)).leftover = rest ∧
      (transferSampleViaSds pcmData slot sampleRate (.nak :: r2 :: rest)).successfulPackets =
        (pcmData.length + 79) / 80) := by
  have hvalid : ¬ (slot < 30 ∨ 61 < slot) := by omega
  cases r2
  case ack =>
    refine ⟨?_, fun hne _ => absurd rfl hne, fun _ => ?_⟩
    · simp only [transferSampleViaSds, if_neg hvalid]
      rw [finishTransfer_events_nonHandshake]
      exact ⟨(sdsLoop pcmData ((pcmData.length + 79) / 80) 0 0 0 false rest).events ++
        [.progress (completeProgress ((pcmData.length + 79) / 80)
          (sdsLoop pcmData ((pcmData.length + 79) / 80) 0 0 0 false rest).successfulPackets
          false)], by simp⟩
    · simp only [transferSampleViaSds, if_neg hvalid]
      exact ⟨(finishTransfer_nonHandshake _ _ _ _).1,
        (finishTransfer_nonHandshake _ _ _ _).2.1,
        (finishTransfer_nonHandshake _ _ _ _).2.2.1,
        (finishTransfer_nonHandshake _ _ _ _).2.2.2.1⟩
  case timeout =>
    refine ⟨?_, fun _ hne => absurd rfl hne, fun _ => ?_⟩
    · simp only [transferSampleViaSds, if_neg hvalid]
      rw [finishTransfer_events_nonHandshake]
      exact ⟨(sdsLoop pcmData ((pcmData.length + 79) / 80) 0 0 0 false rest).events ++
        [.progress (completeProgress ((pcmData.length + 79) / 80)
          (sdsLoop pcmData ((pcmData.length + 79) / 80) 0 0 0 false rest).successfulPackets
          false)], by simp⟩
    · simp only [transferSampleViaSds, if_neg hvalid]
      exact ⟨(finishTransfer_nonHandshake _ _ _ _).1,
        (finishTransfer_nonHandshake _ _ _ _).2.1,
        (finishTransfer_nonHandshake _ _ _ _).2.2.1,
        (finishTransfer_nonHandshake _ _ _ _).2.2.2.1⟩
  case nak =>
    refine ⟨⟨[], ?_⟩, fun _ _ => ⟨?_, ?_⟩, ?_⟩
    · simp [transferSampleViaSds, if_neg hvalid]
    · simp [transferSampleViaSds, if_neg hvalid]
    · simp [transferSampleViaSds, if_neg hvalid]
    · rintro (h | h) <;> exact absurd h (by decide)
  case wait =>
    refine ⟨⟨[], ?_⟩, fun _ _ => ⟨?_, ?_⟩, ?_⟩
    · simp [transferSampleViaSds, if_neg hvalid]
    · simp [transferSampleViaSds, if_neg hvalid]
    · simp [transferSampleViaSds, if_neg hvalid]
    · rintro (h | h) <;> exact absurd h (by decide)
  case cancel =>
    refine ⟨⟨[], ?_⟩, fun _ _ => ⟨?_, ?_⟩, ?_⟩
    · simp [transferSampleViaSds, if_neg hvalid]
    · simp [transferSampleViaSds, if_neg hvalid]
    · simp [transferSampleViaSds, if_neg hvalid]
    · rintro (h | h) <;> exact absurd h (by decide)

/-- C1, counterexample: with replies `[Nak, Ack, Cancel]` on a one-packet
transfer the session does NOT enter `StreamingHandshake` after the second
reply `Ack`: it completes successfully with `handshaking = false`, and the
`Cancel` reply is never awaited (it remains in the leftover oracle) — whereas
the claim's handshaking mode would have awaited it and failed the transfer. -/
theorem header_nak_ack_cex :
    (transferSampleViaSds (List.replicate 80 0) 30 44100 [.nak, .ack, .cancel]).outcome = none ∧
    (transferSampleViaSds (List.replicate 80 0) 30 44100 [.nak, .ack, .cancel]).handshaking = false ∧
    (transferSampleViaSds (List.replicate 80 0) 30 44100 [.nak, .ack, .cancel]).leftover = [.cancel] ∧
    (transferSampleViaSds (List.replicate 80 0) 30 44100 [.nak, .ack, .cancel]).successfulPackets = 1 := by
  have key : transferSampleViaSds (List.replicate 80 0) 30 44100 [.nak, .ack, .cancel] =
      finishTransfer
        [.send (sendSdsMessage (createDumpHeader 30 16 44100 80)), .progress headerProgress,
         .send (sendSdsMessage (createDumpHeader 30 16 44100 80))]
        (List.replicate 80 0) 1 false [.cancel] := rfl
  rw [key]
  refine ⟨(finishTransfer_nonHandshake _ _ _ _).1,
    (finishTransfer_nonHandshake _ _ _ _).2.1,
    (finishTransfer_nonHandshake _ _ _ _).2.2.1, ?_⟩
  have h4 := (finishTransfer_nonHandshake
    [SdsEvent.send (sendSdsMessage (createDumpHeader 30 16 44100 80)),
     .progress headerProgress,
     .send (sendSdsMessage (createDumpHeader 30 16 44100 80))]
    (List.replicate 80 0) 1 [.cancel]).2.2.2.1
  rw [h4]
  simp

/-- C1, witness: the amended theorem applied at a concrete slot and PCM
buffer, for a rejecting second reply (`Wait`) and an accepted one
(`Timeout`). -/
theorem header_nak_retry_witness :
    ((30 : ℕ) ≤ 30 ∧ (30 : ℕ) ≤ 61) ∧
    ((transferSampleViaSds (List.replicate 80 0) 30 44100 [.nak, .wait]).outcome =
        some .headerRejectedTwice ∧
      (transferSampleViaSds (List.replicate 80 0) 30 44100 [.nak, .wait]).leftover = []) ∧
    ((transferSampleViaSds (List.replicate 80 0) 30 44100 [.nak, .timeout]).outcome = none ∧
      (transferSampleViaSds (List.replicate 80 0) 30 44100 [.nak, .timeout]).handshaking = false ∧
      (transferSampleViaSds (List.replicate 80 0) 30 44100 [.nak, .timeout]).leftover = [] ∧
      (transferSampleViaSds (List.replicate 80 0) 30 44100 [.nak, .timeout]).successfulPackets =
        ((List.replicate 80 (0 : ℕ)).length + 79) / 80) :=
  ⟨⟨le_refl 30, by omega⟩,
    (header_nak_retry_spec (List.replicate 80 0) 30 44100 .wait [] (by omega) (by omega)).2.1
      (by decide) (by decide),
    (header_nak_retry_spec (List.replicate 80 0) 30 44100 .timeout [] (by omega) (by omega)).2.2
      (Or.inr rfl)⟩

set_option maxRecDepth 40000 in
/-- C2: in a 10-packet transfer in handshaking mode, when packets 0–4 are
acknowledged and the reply to packet 5 is a plain per-packet timeout, the
session permanently switches to non-handshaking mode, packets 6–9 are sent
with no reply awaited (any further oracle entries are left untouched), and
the transfer completes with `successfulPackets = 10` after 11 sends (header
plus 10 data packets). -/
theorem midstream_timeout_fallback (extra : List SdsResponseType) :
    (transferSampleViaSds (List.replicate 800 0) 30 44100
      (.ack :: .ack :: .ack :: .ack :: .ack :: .ack :: .timeout :: extra)).outcome = none ∧
    (transferSampleViaSds (List.replicate 800 0) 30 44100
      (.ack :: .ack :: .ack :: .ack :: .ack :: .ack :: .timeout :: extra)).successfulPackets = 10 ∧
    (transferSampleViaSds (List.replicate 800 0) 30 44100
      (.ack :: .ack :: .ack :: .ack :: .ack :: .ack :: .timeout :: extra)).handshaking = false ∧
    (transferSampleViaSds (List.replicate 800 0) 30 44100
      (.ack :: .ack :: .ack :: .ack :: .ack :: .ack :: .timeout :: extra)).leftover = extra ∧
    sendCount (transferSampleViaSds (List.replicate 800 0) 30 44100
      (.ack :: .ack :: .ack :: .ack :: .ack :: .ack :: .timeout :: extra)).events = 11 := by
  have key : transferSampleViaSds (List.replicate 800 0) 30 44100
      (.ack :: .ack :: .ack :: .ack :: .ack :: .ack :: .timeout :: extra) =
      finishTransfer
        [.send (sendSdsMessage (createDumpHeader 30 16 44100 800)), .progress headerProgress]
        (List.replicate 800 0) 10 true
        (.ack :: .ack :: .ack :: .ack :: .ack :: .timeout :: extra) := rfl
  have hlen : (0:ℕ) < (List.replicate 800 (0:ℕ)).length := by
    rw [List.length_replicate]; norm_num
  have s0 : sdsLoop (List.replicate 800 0) 10 0 0 0 true
      (.ack :: .ack :: .ack :: .ack :: .ack :: .timeout :: extra) =
      { sdsLoop (List.replicate 800 0) 10 1 80 1 true
          (.ack :: .ack :: .ack :: .ack :: .timeout :: extra) with
        events := .send (sendSdsMessage (createDataPacket 0 (List.replicate 800 0) 0)) ::
          .progress (dataProgress 10 1 true) ::
          (sdsLoop (List.replicate 800 0) 10 1 80 1 true
            (.ack :: .ack :: .ack :: .ack :: .timeout :: extra)).events } := by
    rw [sdsLoop, dif_pos (by rw [List.length_replicate]; norm_num)]
    rfl
  have s1 : sdsLoop (List.replicate 800 0) 10 1 80 1 true
      (.ack :: .ack :: .ack :: .ack :: .timeout :: extra) =
      { sdsLoop (List.replicate 800 0) 10 2 160 2 true
          (.ack :: .ack :: .ack :: .timeout :: extra) with
        events := .send (sendSdsMessage (createDataPacket 1 (List.replicate 800 0) 80)) ::
          .progress (dataProgress 10 2 true) ::
          (sdsLoop (List.replicate 800 0) 10 2 160 2 true
            (.ack :: .ack :: .ack :: .timeout :: extra)).events } := by
    rw [sdsLoop, dif_pos (by rw [List.length_replicate]; norm_num)]
    rfl
  have s2 : sdsLoop (List.replicate 800 0) 10 2 160 2 true
      (.ack :: .ack :: .ack :: .timeout :: extra) =
      { sdsLoop (List.replicate 800 0) 10 3 240 3 true
          (.ack :: .ack :: .timeout :: extra) with
        events := .send (sendSdsMessage (createDataPacket 2 (List.replicate 800 0) 160)) ::
          .progress (dataProgress 10 3 true) ::
          (sdsLoop (List.replicate 800 0) 10 3 240 3 true
            (.ack :: .ack :: .timeout :: extra)).events } := by
    rw [sdsLoop, dif_pos (by rw [List.length_replicate]; norm_num)]
    rfl
  have s3 : sdsLoop (List.replicate 800 0) 10 3 240 3 true
      (.ack :: .ack :: .timeout :: extra) =
      { sdsLoop (List.replicate 800 0) 10 4 320 4 true (.ack :: .timeout :: extra) with
        events := .send (sendSdsMessage (createDataPacket 3 (List.replicate 800 0) 240)) ::
          .progress (dataProgress 10 4 true) ::
          (sdsLoop (List.replicate 800 0) 10 4 320 4 true (.ack :: .timeout :: extra)).events } := by
    rw [sdsLoop, dif_pos (by rw [List.length_replicate]; norm_num)]
    rfl
  have s4 : sdsLoop (List.replicate 800 0) 10 4 320 4 true (.ack :: .timeout :: extra) =
      { sdsLoop (List.replicate 800 0) 10 5 400 5 true (.timeout :: extra) with
        events := .send (sendSdsMessage (createDataPacket 4 (List.replicate 800 0) 320)) ::
          .progress (dataProgress 10 5 true) ::
          (sdsLoop (List.replicate 800 0) 10 5 400 5 true (.timeout :: extra)).events } := by
    rw [sdsLoop, dif_pos (by rw [List.length_replicate]; norm_num)]
    rfl
  have s5 : sdsLoop (List.replicate 800 0) 10 5 400 5 true (.timeout :: extra) =
      { sdsLoop (List.replicate 800 0) 10 6 480 6 false extra with
        events := .send (sendSdsMessage (createDataPacket 5 (List.replicate 800 0) 400)) ::
          .progress (dataProgress 10 6 false) ::
          (sdsLoop (List.replicate 800 0) 10 6 480 6 false extra).events } := by
    rw [sdsLoop, dif_pos (by rw [List.length_replicate]; norm_num)]
    rfl
  have hnh := sdsLoop_nonHandshake (List.replicate 800 0) 10
    ((List.replicate 800 0).length - 480) 6 480 6 extra rfl
  have h1 := hnh.1
  have h2 := hnh.2.1
  have h3 := hnh.2.2.1
  have h4 := hnh.2.2.2.1
  have h5 := hnh.2.2.2.2
  simp only [List.length_replicate] at h2 h5
  have h2' : (sdsLoop (List.replicate 800 0) 10 6 480 6 false extra).successfulPackets = 10 :=
    h2.trans (by norm_num)
  have h5' : sendCount (sdsLoop (List.replicate 800 0) 10 6 480 6 false extra).events = 4 :=
    h5.trans (by norm_num)
  have hloop :
      (sdsLoop (List.replicate 800 0) 10 0 0 0 true
        (.ack :: .ack :: .ack :: .ack :: .ack :: .timeout :: extra)).outcome = none ∧
      (sdsLoop (List.replicate 800 0) 10 0 0 0 true
        (.ack :: .ack :: .ack :: .ack :: .ack :: .timeout :: extra)).successfulPackets = 10 ∧
      (sdsLoop (List.replicate 800 0) 10 0 0 0 true
        (.ack :: .ack :: .ack :: .ack :: .ack :: .timeout :: extra)).handshaking = false ∧
      (sdsLoop (List.replicate 800 0) 10 0 0 0 true
        (.ack :: .ack :: .ack :: .ack :: .ack :: .timeout :: extra)).leftover = extra ∧
      sendCount (sdsLoop (List.replicate 800 0) 10 0 0 0 true
        (.ack :: .ack :: .ack :: .ack :: .ack :: .timeout :: extra)).events = 10 := by
    rw [s0, s1, s2, s3, s4, s5]
    refine ⟨h1, h2', h3, h4, ?_⟩
    simp only [sendCount_cons_send, sendCount_cons_progress, h5']
  rw [key]
  unfold finishTransfer
  simp only [hloop.1]
  refine ⟨trivial, hloop.2.1, hloop.2.2.1, hloop.2.2.2.1, ?_⟩
  simp only [sendCount_append, sendCount_cons_send, sendCount_cons_progress, sendCount_nil,
    hloop.2.2.2.2]

/-- Chain-extension helper: an advancing loop iteration prepends a send and a
progress report whose percentage is the next `pct` value. -/
theorem chain_advance (total sp : ℕ) (es : List SdsEvent) (msg : List ℕ) (hs : Bool)
    (hchain : List.Chain' (fun a b => a ≤ b)
      (pct total (sp + 1) :: progressPercentages es))
    (hle : ∀ q ∈ progressPercentages es, q ≤ 100) :
    List.Chain' (fun a b => a ≤ b) (pct total sp :: progressPercentages
      (.send msg :: .progress (dataProgress total (sp + 1) hs) :: es)) ∧
    (∀ q ∈ progressPercentages
      (.send msg :: .progress (dataProgress total (sp + 1) hs) :: es), q ≤ 100) := by
  constructor
  · simp only [progressPercentages_cons_send, progressPercentages_cons_progress]
    have hp : (dataProgress total (sp + 1) hs).percentage = pct total (sp + 1) := rfl
    rw [hp]
    exact List.chain'_cons.mpr ⟨pct_mono total sp, hchain⟩
  · simp only [progressPercentages_cons_send, progressPercentages_cons_progress]
    intro q hq
    rcases List.mem_cons.mp hq with rfl | hq'
    · exact pct_le_100 total (sp + 1)
    · exact hle q hq'

/-- Chain-extension helper: a retry iteration prepends only a send event. -/
theorem chain_retry (total sp : ℕ) (es : List SdsEvent) (msg : List ℕ)
    (hchain : List.Chain' (fun a b => a ≤ b) (pct total sp :: progressPercentages es))
    (hle : ∀ q ∈ progressPercentages es, q ≤ 100) :
    List.Chain' (fun a b => a ≤ b)
      (pct total sp :: progressPercentages (.send msg :: es)) ∧
    (∀ q ∈ progressPercentages (.send msg :: es), q ≤ 100) := by
  simp only [progressPercentages_cons_send]
  exact ⟨hchain, hle⟩

/-- The streaming loop emits a non-decreasing chain of percentages bounded by
100, whatever the device replies. -/
theorem sdsLoop_chain (pcmData : List ℕ) (total : ℕ) :
    ∀ fuel replies packetNum offset successful handshaking,
      replies.length + (pcmData.length - offset) ≤ fuel →
      List.Chain' (fun a b => a ≤ b)
        (pct total successful :: progressPercentages
          (sdsLoop pcmData total packetNum offset successful handshaking replies).events) ∧
      (∀ q ∈ progressPercentages
          (sdsLoop pcmData total packetNum offset successful handshaking replies).events,
        q ≤ 100) := by
  intro fuel
  induction fuel with
  | zero =>
    intro replies pn offset sp hs hm
    have h1 : ¬ (offset < pcmData.length) := by omega
    rw [sdsLoop, dif_neg h1]
    exact ⟨List.chain'_singleton _, by simp⟩
  | succ fuel ih =>
    intro replies pn offset sp hs hm
    by_cases h : offset < pcmData.length
    · rw [sdsLoop, dif_pos h]
      cases hs with
      | false =>
        simp only [Bool.false_eq_true, if_false]
        have hrec := ih replies (pn + 1) (offset + 80) (sp + 1) false (by omega)
        exact chain_advance total sp _ _ false hrec.1 hrec.2
      | true =>
        simp only [if_true]
        cases replies with
        | nil =>
          have hrec := ih [] (pn + 1) (offset + 80) (sp + 1) false (by simp; omega)
          exact chain_advance total sp _ _ false hrec.1 hrec.2
        | cons r rest =>
          simp only [List.length_cons] at hm
          cases r with
          | ack =>
            have hrec := ih rest (pn + 1) (offset + 80) (sp + 1) true (by omega)
            exact chain_advance total sp _ _ true hrec.1 hrec.2
          | nak =>
            have hrec := ih rest pn offset sp true (by omega)
            exact chain_retry total sp _ _ hrec.1 hrec.2
          | cancel =>
            exact ⟨List.chain'_singleton _, by simp⟩
          | timeout =>
            have hrec := ih rest (pn + 1) (offset + 80) (sp + 1) false (by omega)
            exact chain_advance total sp _ _ false hrec.1 hrec.2
          | wait =>
            cases rest with
            | nil =>
              have hrec := ih [] (pn + 1) (offset + 80) (sp + 1) false (by simp; omega)
              exact chain_advance total sp _ _ false hrec.1 hrec.2
            | cons r2 rest2 =>
              simp only [List.length_cons] at hm
              cases r2 with
              | ack =>
                have hrec := ih rest2 (pn + 1) (offset + 80) (sp + 1) true (by omega)
                exact chain_advance total sp _ _ true hrec.1 hrec.2
              | nak =>
                have hrec := ih rest2 pn offset sp true (by omega)
                exact chain_retry total sp _ _ hrec.1 hrec.2
              | cancel =>
                exact ⟨List.chain'_singleton _, by simp⟩
              | wait =>
                have hrec := ih rest2 (pn + 1) (offset + 80) (sp + 1) false (by omega)
                exact chain_advance total sp _ _ false hrec.1 hrec.2
              | timeout =>
                have hrec := ih rest2 (pn + 1) (offset + 80) (sp + 1) false (by omega)
                exact chain_advance total sp _ _ false hrec.1 hrec.2
    · rw [sdsLoop, dif_neg h]
      exact ⟨List.chain'_singleton _, by simp⟩

/-- Progress properties of `finishTransfer` for any mode and reply oracle:
monotone percentages, all bounded by 100, and on success a final `complete`
report at exactly 100. -/
theorem finishTransfer_spec (pre : List SdsEvent) (pcmData : List ℕ) (total : ℕ)
    (hs : Bool) (replies : List SdsResponseType)
    (hpre : progressPercentages pre = [0]) :
    List.Chain' (fun a b => a ≤ b)
      (progressPercentages (finishTransfer pre pcmData total hs replies).events) ∧
    (∀ q ∈ progressPercentages (finishTransfer pre pcmData total hs replies).events,
      q ≤ 100) ∧
    ((finishTransfer pre pcmData total hs replies).outcome = none →
      ∃ p : SdsProgress,
        (finishTransfer pre pcmData total hs replies).events.getLast? =
          some (.progress p) ∧ p.stage = .complete ∧ p.percentage = 100) := by
  have hloop := sdsLoop_chain pcmData total (replies.length + (pcmData.length - 0))
    replies 0 0 0 hs (le_refl _)
  have hchain0 : List.Chain' (fun a b => a ≤ b)
      ((0 : ℚ) :: progressPercentages (sdsLoop pcmData total 0 0 0 hs replies).events) := by
    have h := hloop.1
    rw [pct_zero] at h
    exact h
  unfold finishTransfer
  cases hout : (sdsLoop pcmData total 0 0 0 hs replies).outcome with
  | none =>
    simp only [hout]
    refine ⟨?_, ?_, fun _ => ?_⟩
    · rw [progressPercentages_append, progressPercentages_append, hpre]
      have hcomp : progressPercentages
          [SdsEvent.progress (completeProgress total
            (sdsLoop pcmData total 0 0 0 hs replies).successfulPackets
            (sdsLoop pcmData total 0 0 0 hs replies).handshaking)] = [100] := rfl
      rw [hcomp]
      refine List.chain'_append.mpr ⟨?_, List.chain'_singleton _, ?_⟩
      · simpa using hchain0
      · intro x hx y hy
        simp only [List.head?_cons, Option.mem_def, Option.some.injEq] at hy
        subst hy
        have hxmem : x ∈ (0 : ℚ) ::
            progressPercentages (sdsLoop pcmData total 0 0 0 hs replies).events := by
          have hx' : x ∈ ((0 : ℚ) ::
              progressPercentages (sdsLoop pcmData total 0 0 0 hs replies).events).getLast? := by
            simpa using hx
          obtain ⟨hne, rfl⟩ := List.mem_getLast?_eq_getLast hx'
          exact List.getLast_mem hne
        rcases List.mem_cons.mp hxmem with rfl | hxmem'
        · norm_num
        · exact hloop.2 x hxmem'
    · intro q hq
      rw [progressPercentages_append, progressPercentages_append, hpre] at hq
      have hcomp : progressPercentages
          [SdsEvent.progress (completeProgress total
            (sdsLoop pcmData total 0 0 0 hs replies).successfulPackets
            (sdsLoop pcmData total 0 0 0 hs replies).handshaking)] = [100] := rfl
      rw [hcomp] at hq
      rcases List.mem_append.mp hq with hq' | hq'
      · rcases List.mem_append.mp hq' with hq'' | hq''
        · simp only [List.mem_singleton] at hq''
          subst hq''
          norm_num
        · exact hloop.2 q hq''
      · simp only [List.mem_singleton] at hq'
        subst hq'
        norm_num
    · refine ⟨completeProgress total
        (sdsLoop pcmData total 0 0 0 hs replies).successfulPackets
        (sdsLoop pcmData total 0 0 0 hs replies).handshaking, ?_, rfl, rfl⟩
      rw [List.getLast?_concat]
  | some e =>
    simp only [hout]
    refine ⟨?_, ?_, fun hnone => absurd hnone (by simp)⟩
    · rw [progressPercentages_append, hpre]
      simpa using hchain0
    · intro q hq
      rw [progressPercentages_append, hpre] at hq
      rcases List.mem_append.mp hq with hq' | hq'
      · simp only [List.mem_singleton] at hq'
        subst hq'
        norm_num
      · exact hloop.2 q hq'

/-- C10: within a single `transferSampleViaSds` call, for every sequence of
device replies the percentage values delivered to the progress callback are
non-decreasing and never exceed 100, and when the transfer completes without
error the final report has stage `complete` and percentage exactly 100. -/
theorem sds_progress_spec (pcmData : List ℕ) (slot sampleRate : ℕ)
    (replies : List SdsResponseType) :
    List.Chain' (fun a b => a ≤ b)
      (progressPercentages (transferSampleViaSds pcmData slot sampleRate replies).events) ∧
    (∀ q ∈ progressPercentages (transferSampleViaSds pcmData slot sampleRate replies).events,
      q ≤ 100) ∧
    ((transferSampleViaSds pcmData slot sampleRate replies).outcome = none →
      ∃ p : SdsProgress,
        (transferSampleViaSds pcmData slot sampleRate replies).events.getLast? =
          some (.progress p) ∧ p.stage = .complete ∧ p.percentage = 100) := by
  by_cases hslot : slot < 30 ∨ 61 < slot
  · simp only [transferSampleViaSds, if_pos hslot]
    exact ⟨List.chain'_nil, by simp, fun hc => absurd hc (by simp)⟩
  · cases replies with
    | nil =>
      simp only [transferSampleViaSds, if_neg hslot]
      exact finishTransfer_spec _ _ _ _ _ rfl
    | cons r rest =>
      cases r with
      | ack =>
        simp only [transferSampleViaSds, if_neg hslot]
        exact finishTransfer_spec _ _ _ _ _ rfl
      | wait =>
        simp only [transferSampleViaSds, if_neg hslot]
        exact finishTransfer_spec _ _ _ _ _ rfl
      | cancel =>
        simp only [transferSampleViaSds, if_neg hslot]
        exact finishTransfer_spec _ _ _ _ _ rfl
      | timeout =>
        simp only [transferSampleViaSds, if_neg hslot]
        exact finishTransfer_spec _ _ _ _ _ rfl
      | nak =>
        cases rest with
        | nil =>
          simp only [transferSampleViaSds, if_neg hslot]
          exact finishTransfer_spec _ _ _ _ _ rfl
        | cons r2 rest2 =>
          cases r2 with
          | ack =>
            simp only [transferSampleViaSds, if_neg hslot]
            exact finishTransfer_spec _ _ _ _ _ rfl
          | timeout =>
            simp only [transferSampleViaSds, if_neg hslot]
            exact finishTransfer_spec _ _ _ _ _ rfl
          | nak =>
            simp only [transferSampleViaSds, if_neg hslot]
            refine ⟨?_, ?_, fun hc => absurd hc (by simp)⟩
            · exact List.chain'_singleton 0
            · intro q hq
              rcases List.mem_singleton.mp hq with rfl
              norm_num [headerProgress]
          | wait =>
            simp only [transferSampleViaSds, if_neg hslot]
            refine ⟨?_, ?_, fun hc => absurd hc (by simp)⟩
            · exact List.chain'_singleton 0
            · intro q hq
              rcases List.mem_singleton.mp hq with rfl
              norm_num [headerProgress]
          | cancel =>
            simp only [transferSampleViaSds, if_neg hslot]
            refine ⟨?_, ?_, fun hc => absurd hc (by simp)⟩
            · exact List.chain'_singleton 0
            · intro q hq
              rcases List.mem_singleton.mp hq with rfl
              norm_num [headerProgress]

/-- C10, witness: the success clause applied at a concrete run (header
timeout, one packet, non-handshaking completion). -/
theorem sds_progress_spec_witness :
    ∃ p : SdsProgress,
      (transferSampleViaSds (List.replicate 80 0) 30 44100 [.timeout]).events.getLast? =
        some (.progress p) ∧ p.stage = .complete ∧ p.percentage = 100 :=
  (sds_progress_spec (List.replicate 80 0) 30 44100 [.timeout]).2.2 (by
    have key : transferSampleViaSds (List.replicate 80 0) 30 44100 [.timeout] =
        finishTransfer
          [.send (sendSdsMessage (createDumpHeader 30 16 44100 80)), .progress headerProgress]
          (List.replicate 80 0) 1 false [] := rfl
    rw [key]
    exact (finishTransfer_nonHandshake _ _ _ _).1)
